import Mathlib

/-!
Verification of the `larousse-searcher` extraction pipeline (`src/lib/utils.js`)
against its natural-language specification.

The source is a Node.js module.  Its pure core — URL classification, the word /
suggestion / definition / synonym-antonym extractors, and the orchestration in
`search` — is shallowly embedded below.  JavaScript strings are modelled as Lean
`String`s together with structurally recursive implementations of the string
primitives the code uses (`split`, `endsWith`, `includes`, `trim`, first-match
`replace`, the global parenthesis-stripping `replace`), so that every embedded
function evaluates by kernel reduction.  The cheerio document tree is modelled
by a tagged node type (`DomNode`); a loaded page is modelled by the results of
the five CSS selector queries the code performs (the HTML parser and its
selector engine are external collaborators).  JavaScript exceptions (both the
`throw`s written in the source and the `TypeError`s raised by property access on
`undefined`) are modelled with `Except String`.
-/

/-! ## JavaScript string primitives -/

/-- The whitespace class trimmed by JavaScript `String.prototype.trim`
(ASCII whitespace plus the no-break space, which the Larousse markup uses). -/
def jsWhitespace (c : Char) : Bool :=
  c == ' ' || c == '\t' || c == '\n' || c == '\r' ||
    c == '\u000B' || c == '\u000C' || c == ' '

/-- JavaScript `String.prototype.trim`. -/
def jsTrim (s : String) : String :=
  String.mk (((s.data.dropWhile jsWhitespace).reverse.dropWhile jsWhitespace).reverse)

/-- Splitting loop for `jsSplit`: scans left to right, cutting at every
leftmost non-overlapping occurrence of the (non-empty) separator.  The fuel is
always at least the length of the remaining input plus one, so the fuel-zero
branch is unreachable. -/
def charsSplitGo (sep : List Char) : Nat → List Char → List Char → List (List Char)
  | 0, rest, acc => [acc.reverse ++ rest]
  | _ + 1, [], acc => [acc.reverse]
  | n + 1, c :: rest, acc =>
      if sep.isPrefixOf (c :: rest) then
        acc.reverse :: charsSplitGo sep n (List.drop (sep.length - 1) rest) []
      else
        charsSplitGo sep n rest (c :: acc)

/-- JavaScript `s.split(sep)` for a non-empty string separator (the code only
splits on `"/"`, `" - "`, `"."` and `", "`). -/
def jsSplit (sep s : String) : List String :=
  (charsSplitGo sep.data (s.data.length + 1) s.data []).map String.mk

/-- JavaScript `s.endsWith(suffix)`. -/
def jsEndsWith (s suffix : String) : Bool :=
  suffix.data.isSuffixOf s.data

/-- Does `needle` occur as a contiguous run inside the second list? -/
def charsIsInfixOf (needle : List Char) : List Char → Bool
  | [] => needle.isEmpty
  | c :: rest => needle.isPrefixOf (c :: rest) || charsIsInfixOf needle rest

/-- JavaScript `s.includes(sub)` for a non-empty `sub` (the code only tests
for `"\n"`). -/
def jsIncludes (sub s : String) : Bool :=
  charsIsInfixOf sub.data s.data

/-- JavaScript `s.replace(pat, rep)` with a string pattern: replaces only the
first occurrence (used by the code for the `" :"` artifact). -/
def jsReplaceFirst (pat rep s : String) : String :=
  match jsSplit pat s with
  | [] => s
  | [x] => x
  | x :: y :: rest => x ++ rep ++ String.intercalate pat (y :: rest)

/-- JavaScript `s.replace(/\(|\)/g, "")`: deletes every parenthesis. -/
def stripParens (s : String) : String :=
  String.mk (s.data.filter (fun c => !(c == '(' || c == ')')))

/-! ## The document tree -/

/-- A node of the parsed document tree (cheerio / domhandler view used by the
code): either a text node carrying its `data`, or a tag element carrying its
`class` attribute, its `href` attribute (each `none` when absent) and its
ordered child list.  No other node feature is consulted by the source. -/
inductive DomNode : Type where
  | text (data : String) : DomNode
  | tag (cls href : Option String) (children : List DomNode) : DomNode

/-- `node.data` read as a raw JavaScript value: a string for a text node,
`undefined` (modelled `none`) for an element. -/
def nodeDataOpt : DomNode → Option String
  | .text d => some d
  | .tag _ _ _ => none

/-- `node.children[0]` where failure to have a first child is a thrown
`TypeError` (`node.children` is `undefined` on a text node; `undefined[0]` and
property access on a missing child both throw at the use sites). -/
def firstChild : DomNode → Except String DomNode
  | .tag _ _ (c :: _) => .ok c
  | _ => .error "TypeError: no first child"

/-- `node.children[0].data` used as a string (immediately followed by `.trim()`
or `.replace(...)` in the source, so a missing first child and an element first
child — whose `.data` is `undefined` — both throw). -/
def firstChildData : DomNode → Except String String
  | .tag _ _ (.text d :: _) => .ok d
  | _ => .error "TypeError: first child has no string data"

/-! ## Constants and external collaborators -/

def LAROUSSE_URL : String := "https://www.larousse.fr/"

def DICTIONNARY_URL : String := "https://www.larousse.fr/dictionnaires/francais/"

/-- External collaborator: Node's `url.resolve`.  No claim inspects the inner
structure of a resolved URL, so resolution is modelled as: an `href` already
carrying a scheme is returned unchanged, any other `href` is appended to the
base. -/
def resolveUrl (base href : String) : String :=
  if jsIncludes "://" href then href else base ++ href

/-! ## getWord (src/lib/utils.js:30-35) -/

/-- `getWord(url)`: the word is `url.split("/")[url.split("/").length - 2]`;
when that index is out of range (a URL with no `/` at all) the result is
`undefined` and an `Error` is thrown. -/
def getWord (url : String) : Except String String :=
  let parts := jsSplit "/" url
  if 2 ≤ parts.length then
    .ok (parts.getD (parts.length - 2) "")
  else
    .error ("Invalid argument : failed to get word from url \"" ++ url ++ "\".")

/-! ## Result structures -/

/-- One suggestion entry (`{word, url}`). -/
structure Suggestion where
  word : String
  url : String
deriving Repr, DecidableEq

/-- A synonym or antonym entry.  The source builds these as JavaScript object
literals: an onym coming from a plain-text fragment gets only a `word` (and
possibly an `info`) property, an onym coming from a `Renvois` cross-reference
gets only `word` and `url` properties; a missing property is modelled `none`.
`word` is an `Option` because the `Renvois` branch reads `.data` of a node that
may be an element, in which case the stored value is `undefined`. -/
structure Onym where
  word : Option String := none
  url : Option String := none
  info : Option String := none
deriving Repr, DecidableEq

/-- Result of `getDefinitionOnyms`: the classified type (the literal string
`"synonyms"` or `"antonyms"`) and the entry list. -/
structure Onyms where
  type : String
  list : List Onym
deriving Repr, DecidableEq

/-- One extracted definition.  `num` is an `Option String` because the source
assigns `child.children[0].data.trim().split(".")[0]` — a *string* — to it
(its JSDoc advertises `num: number`; see claim C4). -/
structure Definition where
  num : Option String := none
  definition : String := ""
  examples : List String := []
  synonyms : List Onym := []
  antonyms : List Onym := []
deriving Repr, DecidableEq

/-- Result of `getDefinitions`. -/
structure Definitions where
  words : List (List String)
  gramCat : String
  origin : String
  list : List Definition
deriving Repr, DecidableEq

/-- The parsed page (the cheerio document).  The HTML parser and its CSS
selector engine are external collaborators, so a loaded page is modelled by
the results of the five selector queries the code performs on it. -/
structure Content where
  /-- Anchors matched by the found-mode suggestion selector
  (`".wrapper-search > article:not(.sel) ~ .banner-title > .item-result > a, ..."`). -/
  foundSuggestionAnchors : List DomNode
  /-- Anchors matched by `".corrector > ul > li > h3 > a"`. -/
  correctorAnchors : List DomNode
  /-- Elements matched by `".Zone-Entree1 > .CatgramDefinition"`. -/
  catgramElems : List DomNode
  /-- Elements matched by `".Zone-Entree1 > h2"`. -/
  entryHeaders : List DomNode
  /-- Elements matched by `".Zone-Entree1 > .OrigineDefinition"`. -/
  originElems : List DomNode
  /-- Elements matched by `".Definitions:first-of-type > .DivisionDefinition"`. -/
  divisionDefs : List DomNode

/-! ## getSuggestions (src/lib/utils.js:43-57) -/

/-- Body of the `.each` callback in `getSuggestions`: builds
`{word: elem.children[0].data.trim(), url: resolve(LAROUSSE_URL, elem.attribs.href)}`.
A missing or non-text first child throws (`.trim()` on `undefined`); a missing
`href` makes `resolve` throw. -/
def suggestionOfAnchor (elem : DomNode) : Except String Suggestion := do
  let d ← firstChildData elem
  match elem with
  | .tag _ (some href) _ => .ok { word := jsTrim d, url := resolveUrl LAROUSSE_URL href }
  | _ => .error "TypeError: resolve of undefined href"

/-- The `.each` loop of `getSuggestions`, in document order; an exception in
the callback aborts the whole call. -/
def suggestionsOfAnchors : List DomNode → Except String (List Suggestion)
  | [] => .ok []
  | a :: rest => do
      let s ← suggestionOfAnchor a
      let tail ← suggestionsOfAnchors rest
      .ok (s :: tail)

/-- `getSuggestions(content, exist)`: selects the found-mode anchor set when
`exist` is true, the corrector anchor set otherwise. -/
def getSuggestions (content : Content) (exist : Bool) : Except String (List Suggestion) :=
  suggestionsOfAnchors (if exist then content.foundSuggestionAnchors else content.correctorAnchors)

/-! ## getGramCat (src/lib/utils.js:64-67) -/

/-- `getGramCat(content)`:
`content(".Zone-Entree1 > .CatgramDefinition")[0].children[0].data.trim()`;
an empty query result makes `[0]` `undefined` and the access throw. -/
def getGramCat (content : Content) : Except String String :=
  match content.catgramElems with
  | [] => .error "TypeError: no CatgramDefinition element"
  | e :: _ => do
      let d ← firstChildData e
      .ok (jsTrim d)

/-! ## getWords (src/lib/utils.js:74-85) -/

/-- Inner loop of `getWords` over one header's children: every text child not
containing a newline contributes `child.data.trim().split(", ")`, in order. -/
def wordsOfChildren : List DomNode → List String
  | [] => []
  | .text d :: rest =>
      (if jsIncludes "\n" d then [] else jsSplit ", " (jsTrim d)) ++ wordsOfChildren rest
  | .tag _ _ _ :: rest => wordsOfChildren rest

/-- One iteration of the `.each` loop of `getWords`: a text node in the query
result would have no `.children` and throw. -/
def wordsCatOfHeader : DomNode → Except String (List String)
  | .text _ => .error "TypeError: children of a text node"
  | .tag _ _ children => .ok (wordsOfChildren children)

/-- The `.each` loop of `getWords` over `".Zone-Entree1 > h2"` matches. -/
def wordsCatsLoop : List DomNode → Except String (List (List String))
  | [] => .ok []
  | h :: rest => do
      let cat ← wordsCatOfHeader h
      let tail ← wordsCatsLoop rest
      .ok (cat :: tail)

/-- `getWords(content)`. -/
def getWords (content : Content) : Except String (List (List String)) :=
  wordsCatsLoop content.entryHeaders

/-! ## getOrigin (src/lib/utils.js:92-108) -/

/-- One iteration of the origin loop: a text child contributes its data with
parentheses stripped; a tag child contributes the data of its first child
(or of its first child's first child when that first child is itself a tag),
again parenthesis-stripped.  Reading `.data` of an element (`undefined`) and
then calling `.replace` on it throws, as does indexing a missing child. -/
def originPiece : DomNode → Except String String
  | .text d => .ok (stripParens d)
  | .tag _ _ [] => .error "TypeError: children[0] of empty child list"
  | .tag _ _ (g :: _) =>
      match g with
      | .text d => .ok (stripParens d)
      | .tag _ _ (gg :: _) =>
          match nodeDataOpt gg with
          | some d => .ok (stripParens d)
          | none => .error "TypeError: replace on undefined data"
      | .tag _ _ [] => .error "TypeError: data of undefined child"

/-- The `forEach` loop of `getOrigin`, concatenating pieces in order. -/
def originLoop : List DomNode → Except String String
  | [] => .ok ""
  | c :: rest => do
      let piece ← originPiece c
      let tail ← originLoop rest
      .ok (piece ++ tail)

/-- `getOrigin(content)`: empty string when no `.OrigineDefinition` element
exists; otherwise the concatenation over the first element's children, trimmed. -/
def getOrigin (content : Content) : Except String String :=
  match content.originElems with
  | [] => .ok ""
  | e :: _ =>
      match e with
      | .text _ => .error "TypeError: children of a text node"
      | .tag _ _ children => do
          let origin ← originLoop children
          .ok (jsTrim origin)

/-! ## getTextOnyms (src/lib/utils.js:190-204) -/

/-- Is this node a tag with `class == "indicateurDefinition"`? -/
def isIndicateur : DomNode → Bool
  | .tag cls _ _ => cls == some "indicateurDefinition"
  | .text _ => false

/-- The `info` computation for one fragment `w` of a text run: set only when
`w` equals (as a string) the *value* of the last fragment and the run's next
sibling is an `indicateurDefinition` tag, in which case it is that tag's first
child data with parentheses stripped, trimmed (a missing or non-text first
child throws). -/
def onymInfo (w last : String) (next : Option DomNode) : Except String (Option String) :=
  if w = last then
    match next with
    | some nxt =>
        if isIndicateur nxt then do
          let d ← firstChildData nxt
          .ok (some (jsTrim (stripParens d)))
        else .ok none
    | none => .ok none
  else .ok none

/-- The `forEach` loop of `getTextOnyms` over the fragments of the split:
exactly-empty fragments are skipped, every other fragment yields an onym with
the trimmed fragment as `word` and no `url`. -/
def getTextOnymsGo (last : String) (next : Option DomNode) :
    List String → Except String (List Onym)
  | [] => .ok []
  | w :: rest =>
      if w = "" then getTextOnymsGo last next rest
      else do
        let info ← onymInfo w last next
        let tail ← getTextOnymsGo last next rest
        .ok ({ word := some (jsTrim w), info := info } :: tail)

/-- `getTextOnyms(onymsTextElem)` where `data` is the text node's data and
`next` its next sibling (`onymsTextElem.next`).  The split list is never empty,
so defaulting its last element to `""` is unreachable for the fragments that
are compared (empty fragments are skipped before the comparison). -/
def getTextOnyms (data : String) (next : Option DomNode) : Except String (List Onym) :=
  let onymsTextList := jsSplit " - " data
  getTextOnymsGo (onymsTextList.getLastD "") next onymsTextList

/-! ## getDefinitionOnyms (src/lib/utils.js:164-182) -/

/-- `onymContent.prev.prev.children[0].data` read as a raw value:
a missing sibling at either hop, a text sibling (no `.children`), or an empty
child list throws; an element first child yields `undefined` (`none`), which
the `includes` test then treats as not-a-match. -/
def onymLabelData : Option DomNode → Except String (Option String)
  | some (.tag _ _ (c :: _)) => .ok (nodeDataOpt c)
  | _ => .error "TypeError: prev.prev label unavailable"

/-- The `Renvois` branch of the `getDefinitionOnyms` loop: builds
`{word: c.children[0].children[0].data, url: resolve(LAROUSSE_URL, c.children[0].attribs.href)}`.
The `word` property may be `undefined` (element grandchild) without throwing;
a missing child at either level throws, and a missing `href` makes `resolve`
throw. -/
def renvoisOnym : DomNode → Except String Onym
  | .tag _ _ (DomNode.tag _ (some href) (g :: _) :: _) =>
      .ok { word := nodeDataOpt g, url := some (resolveUrl LAROUSSE_URL href) }
  | .tag _ _ (DomNode.tag _ none (_ :: _) :: _) =>
      .error "TypeError: resolve of undefined href"
  | _ => .error "TypeError: missing child in Renvois"

/-- Body of one iteration of the `forEach` loop of `getDefinitionOnyms`, for a
child `c` with next sibling `next`: a text child other than the bare `" - "`
separator contributes its `getTextOnyms`, a `Renvois` tag contributes one
linked onym, anything else contributes nothing. -/
def onymsOfChild (c : DomNode) (next : Option DomNode) : Except String (List Onym) :=
  match c with
  | .text d => if d = " - " then .ok [] else getTextOnyms d next
  | .tag cls _ _ =>
      if cls = some "Renvois" then do
        let o ← renvoisOnym c
        .ok [o]
      else .ok []

/-- The `forEach` loop of `getDefinitionOnyms` over the sub-tree's children,
each child seeing its next sibling. -/
def getDefinitionOnymsList : List DomNode → Except String (List Onym)
  | [] => .ok []
  | c :: rest => do
      let here ← onymsOfChild c rest.head?
      let tail ← getDefinitionOnymsList rest
      .ok (here ++ tail)

/-- `getDefinitionOnyms(onymContent)` where `prevPrev` is the resolved
`onymContent.prev.prev`.  The type line runs first:
`["Synonyme :", "Synonymes :"].includes(prev.prev.children[0].data)` selects
`"synonyms"` on an exact match and `"antonyms"` on any other value. -/
def getDefinitionOnyms (prevPrev : Option DomNode) (onymContent : DomNode) :
    Except String Onyms := do
  let labelData ← onymLabelData prevPrev
  let type := if labelData = some "Synonyme :" ∨ labelData = some "Synonymes :"
    then "synonyms" else "antonyms"
  match onymContent with
  | .text _ => .error "TypeError: children of a text node"
  | .tag _ _ children => do
      let list ← getDefinitionOnymsList children
      .ok { type := type, list := list }

/-! ## getDefinition (src/lib/utils.js:131-157) -/

/-- One iteration of the `forEach` loop of `getDefinition` over a child, given
the resolved `child.prev.prev` (needed by the `Synonymes` branch):
  * a text child is appended to the running definition text exactly when its
    data contains no `"\n"` and does not trim to `""`;
  * class `numDef` → `num` is set to the first `"."`-separated component of the
    trimmed first-child data (a string);
  * class `Renvois` → the first child's first-child data, trimmed, is appended
    to the running text;
  * class `ExempleDefinition` → the trimmed first-child data is pushed onto
    `examples`;
  * class `Synonymes` → `getDefinitionOnyms` runs and its list is *assigned* to
    the field named by its type;
  * any other child is ignored. -/
def applyDefChild (prevPrev : Option DomNode) (acc : Definition) (child : DomNode) :
    Except String Definition :=
  match child with
  | .text d =>
      if ¬ jsIncludes "\n" d = true ∧ jsTrim d ≠ "" then
        .ok { acc with definition := acc.definition ++ d }
      else .ok acc
  | .tag cls _ _ =>
      if cls = some "numDef" then do
        let d ← firstChildData child
        .ok { acc with num := some ((jsSplit "." (jsTrim d)).headD "") }
      else if cls = some "Renvois" then do
        let a ← firstChild child
        let d ← firstChildData a
        .ok { acc with definition := acc.definition ++ jsTrim d }
      else if cls = some "ExempleDefinition" then do
        let d ← firstChildData child
        .ok { acc with examples := acc.examples ++ [jsTrim d] }
      else if cls = some "Synonymes" then do
        let onyms ← getDefinitionOnyms prevPrev child
        if onyms.type = "synonyms" then .ok { acc with synonyms := onyms.list }
        else .ok { acc with antonyms := onyms.list }
      else .ok acc

/-- The `forEach` loop of `getDefinition`, threading the two previous siblings
so that each child sees its own `prev.prev`. -/
def defChildrenLoop : List DomNode → Option DomNode → Option DomNode → Definition →
    Except String Definition
  | [], _, _, acc => .ok acc
  | c :: rest, p2, p1, acc => do
      let acc' ← applyDefChild p2 acc c
      defChildrenLoop rest p1 (some c) acc'

/-- `getDefinition(defContent)`: runs the child loop from the empty accumulator
and post-processes the text: `definition.replace(" :", "").trim()`
(first occurrence only). -/
def getDefinition : DomNode → Except String Definition
  | .text _ => .error "TypeError: children of a text node"
  | .tag _ _ children => do
      let d ← defChildrenLoop children none none {}
      .ok { d with definition := jsTrim (jsReplaceFirst " :" "" d.definition) }

/-! ## getDefinitionsList / getDefinitions (src/lib/utils.js:116-123, 213-221) -/

/-- The `.each` loop of `getDefinitionsList` over the `DivisionDefinition`
elements of the first definitions block. -/
def defsLoop : List DomNode → Except String (List Definition)
  | [] => .ok []
  | c :: rest => do
      let d ← getDefinition c
      let tail ← defsLoop rest
      .ok (d :: tail)

/-- `getDefinitionsList(content)`. -/
def getDefinitionsList (content : Content) : Except String (List Definition) :=
  defsLoop content.divisionDefs

/-- `getDefinitions(content)`: the object literal evaluates its fields in
source order (`words`, `gramCat`, `origin`, `list`), so the first failing
field aborts the whole call. -/
def getDefinitions (content : Content) : Except String Definitions := do
  let words ← getWords content
  let gramCat ← getGramCat content
  let origin ← getOrigin content
  let list ← getDefinitionsList content
  .ok { words := words, gramCat := gramCat, origin := origin, list := list }

/-! ## search (src/lib/utils.js:231-254) -/

/-- The fetched page as `search` sees it: `page.request.res.responseUrl` (the
resolved, post-redirect URL) and the parsed body `load(page.data)`. -/
structure Page where
  data : Content
  responseUrl : String

/-- The assembled search response. `definitions` is `some` entry data on the
found branch; on the not-found branch the code stores the empty object `{}`,
which carries none of the entry fields and is modelled `none`. -/
structure SearchResponse where
  find : Bool
  word : String
  url : String
  definitions : Option Definitions
  suggestions : List Suggestion
deriving Repr, DecidableEq

/-- The single externally visible failure: the `Error` thrown by the `catch`
block of `search`, whose message carries the requested word
(`Failed to get data for word "<word>" : ...`) and whose `cause` is the
underlying error. -/
inductive SearchError : Type where
  | searchFailed (word : String) (cause : String) : SearchError
deriving Repr, DecidableEq

/-- The `try` block of `search`:
`find = url.endsWith(word) ? false : true`, then
`wordFind = find ? getWord(url) : word`,
`definitions = find ? getDefinitions(content) : {}`,
`suggestions = getSuggestions(content, find)`, assembled into the response. -/
def searchBody (word : String) (page : Page) : Except String SearchResponse := do
  let url := page.responseUrl
  let find := if jsEndsWith url word then false else true
  let wordFind ← if find then getWord url else .ok word
  let definitions ←
    if find then do
      let d ← getDefinitions page.data
      .ok (some d)
    else .ok none
  let suggestions ← getSuggestions page.data find
  .ok { find := find, word := wordFind, url := url,
        definitions := definitions, suggestions := suggestions }

/-- `search(word)` given the outcome of the external fetch (`getPage`): any
error escaping the `try` block — a fetch failure or any extraction failure —
is caught and re-thrown as the single wrapping error. -/
def search (word : String) (fetch : Except String Page) : Except SearchError SearchResponse :=
  match fetch.bind (fun page => searchBody word page) with
  | .ok r => .ok r
  | .error e => .error (.searchFailed word e)

/-! ## Specification-side definitions and fixtures -/

/-- The last path segment of a URL "ignoring a trailing slash", as the
specification's classification contract words it (refinement comparison
definition, written from the spec, to be compared with what the code does). -/
def specLastSegment (url : String) : Option String :=
  (jsSplit "/" (if jsEndsWith url "/" then String.mk url.data.dropLast else url)).getLast?

/-- A page body on which every selector query is empty. -/
def emptyContent : Content :=
  { foundSuggestionAnchors := [], correctorAnchors := [], catgramElems := [],
    entryHeaders := [], originElems := [], divisionDefs := [] }

/-- A minimal found-page body: a grammatical-category element is present (the
one required field), every other query is empty. -/
def foundContent : Content :=
  { emptyContent with
    catgramElems := [DomNode.tag (some "CatgramDefinition") none [DomNode.text "verbe"]] }

/-- A fetched page whose resolved URL's last segment (`"bichat"`) differs from
the requested word `"chat"` while the URL still *ends with* `"chat"`. -/
def pageBichat : Page :=
  { data := emptyContent,
    responseUrl := "https://www.larousse.fr/dictionnaires/francais/bichat" }

/-- A fetched page with the site's real found-page URL shape
`/dictionnaires/francais/<word>/<numeric id>` (no trailing slash). -/
def pageDormir : Page :=
  { data := foundContent,
    responseUrl := "https://www.larousse.fr/dictionnaires/francais/dormir/26522" }

/-! ## Helper lemmas -/

/-- A monadic `Except` bind returns `ok` exactly when both stages do. -/
theorem exceptBind_eq_ok {ε α β : Type} (x : Except ε α) (f : α → Except ε β) (r : β) :
    (x >>= f = Except.ok r) ↔ ∃ a, x = Except.ok a ∧ f a = Except.ok r := by
  cases x with
  | error e =>
      constructor
      · intro h; exact absurd h (fun h => nomatch h)
      · rintro ⟨a, ha, -⟩; exact absurd ha (fun ha => nomatch ha)
  | ok a =>
      constructor
      · intro h; exact ⟨a, rfl, h⟩
      · rintro ⟨b, hb, hf⟩; cases hb; exact hf

/-- Shape of every successful `searchBody` result: the URL is echoed, the flag
is the `endsWith` ternary, the word and entry data follow the flag's branch,
and the suggestions come from the selector mode named by the flag. -/
theorem searchBody_ok_shape (word : String) (page : Page) (r : SearchResponse)
    (h : searchBody word page = .ok r) :
    r.url = page.responseUrl
    ∧ r.find = (if jsEndsWith page.responseUrl word then false else true)
    ∧ (r.find = true → getWord page.responseUrl = .ok r.word
        ∧ ∃ d, getDefinitions page.data = .ok d ∧ r.definitions = some d)
    ∧ (r.find = false → r.word = word ∧ r.definitions = none)
    ∧ getSuggestions page.data r.find = .ok r.suggestions := by
  unfold searchBody at h
  cases hend : jsEndsWith page.responseUrl word with
  | true =>
      simp only [hend, if_true, Bool.false_eq_true, if_false, exceptBind_eq_ok] at h
      obtain ⟨w, hw, dd, hdd, s, hs, hr⟩ := h
      cases hw; cases hdd; cases hr
      refine ⟨rfl, by simp [hend], ?_, fun _ => ⟨rfl, rfl⟩, hs⟩
      intro hf
      exact absurd hf (by simp)
  | false =>
      simp only [hend, Bool.false_eq_true, if_false, if_true, exceptBind_eq_ok] at h
      obtain ⟨w, hw, dd, hdd, dd2, hdd2, s, hs, hr⟩ := h
      cases hdd2; cases hr
      refine ⟨rfl, by simp [hend], fun _ => ⟨hw, dd, hdd, rfl⟩, ?_, hs⟩
      intro hf
      exact absurd hf (by simp)

/-- A successful `search` is a successful `searchBody` on the fetched page. -/
theorem search_ok_body (word : String) (page : Page) (r : SearchResponse)
    (h : search word (.ok page) = .ok r) : searchBody word page = .ok r := by
  unfold search at h
  cases hb : searchBody word page with
  | error e => rw [show Except.bind (Except.ok page) (fun p => searchBody word p)
      = searchBody word page from rfl, hb] at h; exact absurd h (fun h => nomatch h)
  | ok r2 => rw [show Except.bind (Except.ok page) (fun p => searchBody word p)
      = searchBody word page from rfl, hb] at h; cases h; rfl

theorem onymInfo_some (w last : String) (next : Option DomNode) (i : String)
    (h : onymInfo w last next = .ok (some i)) :
    w = last ∧ ∃ nxt, next = some nxt ∧ isIndicateur nxt = true := by
  unfold onymInfo at h
  by_cases hw : w = last
  · refine ⟨hw, ?_⟩
    simp only [hw, if_true] at h
    cases next with
    | none => exact absurd h (by simp)
    | some nxt =>
        cases hi : isIndicateur nxt with
        | false => simp [hi] at h
        | true => exact ⟨nxt, rfl, hi⟩
  · simp [hw] at h

theorem getTextOnymsGo_words (last : String) (next : Option DomNode)
    (ws : List String) (l : List Onym) (h : getTextOnymsGo last next ws = .ok l) :
    l.map Onym.word = (ws.filter (fun w => w != "")).map (fun w => some (jsTrim w)) := by
  induction ws generalizing l with
  | nil => cases h; rfl
  | cons w rest ih =>
      unfold getTextOnymsGo at h
      by_cases hw : w = ""
      · simp only [hw, if_true] at h
        simpa [hw] using ih l h
      · simp only [hw, if_false, exceptBind_eq_ok] at h
        obtain ⟨info, hinfo, tail, htail, hcons⟩ := h
        cases hcons
        have hbne : (w != "") = true := by simp [hw]
        simp [List.filter_cons, hbne, ih tail htail]

theorem getTextOnymsGo_url (last : String) (next : Option DomNode)
    (ws : List String) (l : List Onym) (h : getTextOnymsGo last next ws = .ok l) :
    ∀ o ∈ l, o.url = none := by
  induction ws generalizing l with
  | nil => cases h; intro o ho; cases ho
  | cons w rest ih =>
      unfold getTextOnymsGo at h
      by_cases hw : w = ""
      · simp only [hw, if_true] at h; exact ih l h
      · simp only [hw, if_false, exceptBind_eq_ok] at h
        obtain ⟨info, hinfo, tail, htail, hcons⟩ := h
        cases hcons
        intro o ho
        rcases List.mem_cons.mp ho with rfl | hmem
        · rfl
        · exact ih tail htail o hmem

theorem getTextOnymsGo_info (last : String) (next : Option DomNode)
    (ws : List String) (l : List Onym) (h : getTextOnymsGo last next ws = .ok l) :
    ∀ o ∈ l, o.info ≠ none →
      (∃ w ∈ ws, w ≠ "" ∧ o.word = some (jsTrim w) ∧ w = last)
      ∧ ∃ nxt, next = some nxt ∧ isIndicateur nxt = true := by
  induction ws generalizing l with
  | nil => cases h; intro o ho; cases ho
  | cons w rest ih =>
      unfold getTextOnymsGo at h
      by_cases hw : w = ""
      · simp only [hw, if_true] at h
        intro o ho hinfo
        obtain ⟨⟨w2, hmem, hrest⟩, hnxt⟩ := ih l h o ho hinfo
        exact ⟨⟨w2, List.mem_cons_of_mem _ hmem, hrest⟩, hnxt⟩
      · simp only [hw, if_false, exceptBind_eq_ok] at h
        obtain ⟨info, hinfo, tail, htail, hcons⟩ := h
        cases hcons
        intro o ho hoinfo
        rcases List.mem_cons.mp ho with rfl | hmem
        · simp only at hoinfo
          cases info with
          | none => exact absurd rfl hoinfo
          | some i =>
              obtain ⟨hwlast, hnxt⟩ := onymInfo_some w last next i hinfo
              exact ⟨⟨w, List.mem_cons_self _ _, hw, rfl, hwlast⟩, hnxt⟩
        · obtain ⟨⟨w2, hmem2, hrest⟩, hnxt⟩ := ih tail htail o hmem hoinfo
          exact ⟨⟨w2, List.mem_cons_of_mem _ hmem2, hrest⟩, hnxt⟩

theorem renvoisOnym_fields (c : DomNode) (o : Onym) (h : renvoisOnym c = .ok o) :
    o.info = none ∧ o.url ≠ none := by
  unfold renvoisOnym at h
  split at h
  · cases h; exact ⟨rfl, by simp⟩
  · exact absurd h (fun h => nomatch h)
  · exact absurd h (fun h => nomatch h)

theorem onymsOfChild_url_info (c : DomNode) (next : Option DomNode) (l : List Onym)
    (h : onymsOfChild c next = .ok l) :
    ∀ o ∈ l, o.url = none ∨ o.info = none := by
  cases c with
  | text d =>
      simp only [onymsOfChild] at h
      by_cases hd : d = " - "
      · rw [if_pos hd] at h; cases h; intro o ho; cases ho
      · rw [if_neg hd] at h
        unfold getTextOnyms at h
        intro o ho
        exact Or.inl (getTextOnymsGo_url _ _ _ _ h o ho)
  | tag cls href children =>
      simp only [onymsOfChild] at h
      by_cases hcls : cls = some "Renvois"
      · rw [if_pos hcls] at h
        simp only [exceptBind_eq_ok] at h
        obtain ⟨ro, hro, hcons⟩ := h
        cases hcons
        intro o ho
        rcases List.mem_singleton.mp ho with rfl
        exact Or.inr (renvoisOnym_fields _ _ hro).1
      · rw [if_neg hcls] at h; cases h; intro o ho; cases ho

theorem getDefinitionOnymsList_url_info (cs : List DomNode) (l : List Onym)
    (h : getDefinitionOnymsList cs = .ok l) :
    ∀ o ∈ l, o.url = none ∨ o.info = none := by
  induction cs generalizing l with
  | nil => cases h; intro o ho; cases ho
  | cons c rest ih =>
      unfold getDefinitionOnymsList at h
      simp only [exceptBind_eq_ok] at h
      obtain ⟨here, hhere, tail, htail, hcons⟩ := h
      cases hcons
      intro o ho
      rcases List.mem_append.mp ho with hmem | hmem
      · exact onymsOfChild_url_info c rest.head? here hhere o hmem
      · exact ih tail htail o hmem

theorem getDefinitionOnyms_shape (prevPrev : Option DomNode) (onymContent : DomNode)
    (os : Onyms) (h : getDefinitionOnyms prevPrev onymContent = .ok os) :
    (∃ labelData, onymLabelData prevPrev = .ok labelData ∧
      os.type = if labelData = some "Synonyme :" ∨ labelData = some "Synonymes :"
        then "synonyms" else "antonyms")
    ∧ ∀ o ∈ os.list, o.url = none ∨ o.info = none := by
  unfold getDefinitionOnyms at h
  simp only [exceptBind_eq_ok] at h
  obtain ⟨labelData, hld, h⟩ := h
  cases onymContent with
  | text d => exact absurd h (fun h => nomatch h)
  | tag cls href children =>
      simp only [exceptBind_eq_ok] at h
      obtain ⟨list, hlist, hos⟩ := h
      cases hos
      exact ⟨⟨labelData, hld, rfl⟩, getDefinitionOnymsList_url_info children list hlist⟩

theorem charsIsInfixOf_singleton (c : Char) (l : List Char) :
    charsIsInfixOf [c] l = true ↔ c ∈ l := by
  induction l with
  | nil => simp [charsIsInfixOf, List.isEmpty]
  | cons d rest ih =>
      simp only [charsIsInfixOf, List.isPrefixOf, Bool.or_eq_true, Bool.and_eq_true,
        beq_iff_eq, ih, List.mem_cons]
      constructor
      · rintro (⟨hcd, -⟩ | hmem)
        · exact Or.inl hcd
        · exact Or.inr hmem
      · rintro (hcd | hmem)
        · exact Or.inl ⟨hcd, trivial⟩
        · exact Or.inr hmem

theorem jsIncludes_newline (d : String) : jsIncludes "\n" d = true ↔ '\n' ∈ d.data := by
  have hdata : "\n".data = ['\n'] := rfl
  rw [jsIncludes, hdata, charsIsInfixOf_singleton]

deriving instance DecidableEq for Except

/-! ## Claim C1 -/

/-- C1, counterexample.  The claim says the found flag is true exactly when the
resolved URL's last path segment (ignoring a trailing slash) is not equal to
the requested word.  For the word `"chat"` and a resolved URL whose last
segment is `"bichat"`, the last segment differs from the word — the claim
requires `find = true` — yet the code classifies `find = false`, because
`url.endsWith(word)` is a raw string-suffix test and `"...bichat"` ends with
`"chat"`. -/
theorem search_found_flag_suffix_counterexample :
    Except.map SearchResponse.find (search "chat" (.ok pageBichat)) = .ok false
    ∧ specLastSegment pageBichat.responseUrl = some "bichat"
    ∧ ("bichat" : String) ≠ "chat" := by
  refine ⟨by decide, by decide, by decide⟩

/-- C1, as amended: the found flag is true exactly when the resolved URL does
not end — as a raw string suffix — with the requested word. -/
theorem search_found_flag_iff_not_endsWith (word : String) (page : Page)
    (r : SearchResponse) (h : search word (.ok page) = .ok r) :
    r.find = true ↔ jsEndsWith page.responseUrl word = false := by
  obtain ⟨-, hfind, -⟩ := searchBody_ok_shape word page r (search_ok_body word page r h)
  cases hend : jsEndsWith page.responseUrl word <;> simp [hend] at hfind <;> simp [hfind]

/-- C1 witness: the amended statement applied to the concrete `"chat"` search
above. -/
theorem search_found_flag_iff_not_endsWith_witness :
    ({ find := false, word := "chat", url := pageBichat.responseUrl,
       definitions := none, suggestions := [] } : SearchResponse).find = true
      ↔ jsEndsWith pageBichat.responseUrl "chat" = false :=
  search_found_flag_iff_not_endsWith "chat" pageBichat _ (by decide)

/-- The concrete response of the not-found `"chat"` search on `pageBichat`. -/
def respBichat : SearchResponse :=
  { find := false, word := "chat", url := pageBichat.responseUrl,
    definitions := none, suggestions := [] }

/-- The concrete response of the found `"dormir"` search on `pageDormir`. -/
def respDormir : SearchResponse :=
  { find := true, word := "dormir", url := pageDormir.responseUrl,
    definitions := some { words := [], gramCat := "verbe", origin := "", list := [] },
    suggestions := [] }

/-! ## Claim C2 -/

/-- C2, counterexample.  The claim says a found result's `word` equals the
resolved URL's *last* path segment (second-to-last only when the URL ends with
a trailing slash).  On the site's real found-page URL shape
`…/francais/dormir/26522` — no trailing slash, last segment `"26522"` — the
code returns `word = "dormir"`: `getWord` always takes index `length - 2` of
the split, i.e. the *second-to-last* segment of a slash-free-ending URL. -/
theorem search_word_last_segment_counterexample :
    Except.map SearchResponse.word (search "dormir" (.ok pageDormir)) = .ok "dormir"
    ∧ Except.map SearchResponse.find (search "dormir" (.ok pageDormir)) = .ok true
    ∧ jsEndsWith pageDormir.responseUrl "/" = false
    ∧ specLastSegment pageDormir.responseUrl = some "26522"
    ∧ ("dormir" : String) ≠ "26522" := by
  exact ⟨by decide, by decide, by decide, by decide, by decide⟩

/-- C2, as amended: for a found result the `word` field is entry
`length - 2` of the resolved URL split on `"/"` — the second-to-last path
segment in general, which coincides with the last segment exactly when the URL
ends with a trailing slash; for a not-found result it is the originally
requested word. -/
theorem search_word_from_url_split (word : String) (page : Page)
    (r : SearchResponse) (h : search word (.ok page) = .ok r) :
    (r.find = true →
      2 ≤ (jsSplit "/" page.responseUrl).length
      ∧ r.word = (jsSplit "/" page.responseUrl).getD
          ((jsSplit "/" page.responseUrl).length - 2) "")
    ∧ (r.find = false → r.word = word) := by
  obtain ⟨-, -, hfound, hnot, -⟩ := searchBody_ok_shape word page r (search_ok_body word page r h)
  refine ⟨?_, fun hf => (hnot hf).1⟩
  intro hf
  obtain ⟨hw, -⟩ := hfound hf
  unfold getWord at hw
  by_cases hlen : 2 ≤ (jsSplit "/" page.responseUrl).length
  · rw [if_pos hlen] at hw
    simp only [Except.ok.injEq] at hw
    exact ⟨hlen, hw.symm⟩
  · rw [if_neg hlen] at hw
    exact absurd hw (fun hw => nomatch hw)

/-- C2 witness: the amended statement applied to the concrete `"dormir"`
search above. -/
theorem search_word_from_url_split_witness :
    (respDormir.find = true →
      2 ≤ (jsSplit "/" pageDormir.responseUrl).length
      ∧ respDormir.word = (jsSplit "/" pageDormir.responseUrl).getD
          ((jsSplit "/" pageDormir.responseUrl).length - 2) "")
    ∧ (respDormir.find = false → respDormir.word = "dormir") :=
  search_word_from_url_split "dormir" pageDormir respDormir (by decide)

/-! ## Claim C3 -/

/-- C3, confirmed.  For every successful search result: the entry data is
present (`some`, the code's populated `getDefinitions` object) exactly when the
found flag is true — on the not-found branch the code stores the field-less
empty object `{}`, modelled `none` — and the suggestion list is exactly the one
extracted by the selector mode of the branch taken, the other mode's anchors
contributing nothing. -/
theorem search_entry_iff_found_and_branch_suggestions (word : String) (page : Page)
    (r : SearchResponse) (h : search word (.ok page) = .ok r) :
    (r.definitions ≠ none ↔ r.find = true)
    ∧ (r.find = true →
        suggestionsOfAnchors page.data.foundSuggestionAnchors = .ok r.suggestions)
    ∧ (r.find = false →
        suggestionsOfAnchors page.data.correctorAnchors = .ok r.suggestions) := by
  obtain ⟨-, -, hfound, hnot, hsugg⟩ := searchBody_ok_shape word page r (search_ok_body word page r h)
  refine ⟨?_, ?_, ?_⟩
  · constructor
    · intro hdef
      cases hf : r.find with
      | true => rfl
      | false => exact absurd (hnot hf).2 hdef
    · intro hf
      obtain ⟨-, d, -, hd⟩ := hfound hf
      rw [hd]
      exact fun hc => nomatch hc
  · intro hf
    rw [hf] at hsugg
    exact hsugg
  · intro hf
    rw [hf] at hsugg
    exact hsugg

/-- C3 witness: the statement applied to the concrete not-found `"chat"`
search of `pageBichat`. -/
theorem search_entry_iff_found_witness :
    (respBichat.definitions ≠ none ↔ respBichat.find = true)
    ∧ (respBichat.find = true →
        suggestionsOfAnchors pageBichat.data.foundSuggestionAnchors = .ok respBichat.suggestions)
    ∧ (respBichat.find = false →
        suggestionsOfAnchors pageBichat.data.correctorAnchors = .ok respBichat.suggestions) :=
  search_entry_iff_found_and_branch_suggestions "chat" pageBichat respBichat (by decide)

/-! ## Claim C4 -/

/-- A definition container whose numbering marker reads `"1."`. -/
def divisionNumOne : DomNode :=
  .tag (some "DivisionDefinition") none [.tag (some "numDef") none [.text "1."]]

/-- A definition container whose numbering marker reads `"foo.bar"` — not a
number at all. -/
def divisionNumFoo : DomNode :=
  .tag (some "DivisionDefinition") none [.tag (some "numDef") none [.text "foo.bar"]]

/-- C4, code bug.  The claim (and the source's own JSDoc, `num: number`, as
well as the README) say the `num` field is a positive *integer* parsed from the
marker text before the first `"."`.  The code performs no numeric parse at all:
it assigns `child.children[0].data.trim().split(".")[0]`, a *string* — hence
the embedded field's type `Option String`.  On the marker `"1."` the stored
value is the string `"1"`, and on the non-numeric marker `"foo.bar"` the stored
value is `"foo"`, accepted without any validation. -/
theorem getDefinition_num_is_unparsed_string :
    Except.map Definition.num (getDefinition divisionNumOne) = .ok (some "1")
    ∧ Except.map Definition.num (getDefinition divisionNumFoo) = .ok (some "foo") := by
  exact ⟨by decide, by decide⟩

/-! ## Claim C5 -/

/-- An annotation-marker element reading `"(familier)"`. -/
def indicFamilier : DomNode :=
  .tag (some "indicateurDefinition") none [.text "(familier)"]

/-- C5, counterexample.  The claim says only the *last* fragment of a run can
carry an `info` annotation, and that no earlier fragment ever receives one.
The code compares each fragment to the last fragment *by string value*
(`word == onymsTextList[onymsTextList.length - 1]`), so in the run
`"beau - joli - beau"` — whose first and last fragments are the same string —
followed by an annotation marker, the *first* entry also receives the
annotation. -/
theorem getTextOnyms_info_duplicate_fragment_counterexample :
    getTextOnyms "beau - joli - beau" (some indicFamilier) =
      .ok [{ word := some "beau", info := some "familier" },
           { word := some "joli" },
           { word := some "beau", info := some "familier" }] := by
  decide

/-- C5, as amended: an onym carries an `info` annotation only if its source
fragment's *string value* equals that of the last fragment of its run and the
run's immediately following sibling node is an annotation-marker element; a
fragment whose text differs from the last fragment's never receives one (an
earlier fragment can, exactly when it is a duplicate of the last). -/
theorem getTextOnyms_info_only_last_valued_fragment (data : String)
    (next : Option DomNode) (l : List Onym) (h : getTextOnyms data next = .ok l)
    (o : Onym) (ho : o ∈ l) (hinfo : o.info ≠ none) :
    (∃ w ∈ jsSplit " - " data, w ≠ "" ∧ o.word = some (jsTrim w)
      ∧ w = (jsSplit " - " data).getLastD "")
    ∧ ∃ nxt, next = some nxt ∧ isIndicateur nxt = true := by
  unfold getTextOnyms at h
  exact getTextOnymsGo_info _ _ _ _ h o ho hinfo

/-- C5 witness: the amended statement applied to the first onym of the
concrete duplicate-fragment run above. -/
theorem getTextOnyms_info_only_last_valued_fragment_witness :
    ((∃ w ∈ jsSplit " - " "beau - joli - beau", w ≠ ""
        ∧ ({ word := some "beau", info := some "familier" } : Onym).word = some (jsTrim w)
        ∧ w = (jsSplit " - " "beau - joli - beau").getLastD "")
      ∧ ∃ nxt, some indicFamilier = some nxt ∧ isIndicateur nxt = true) :=
  getTextOnyms_info_only_last_valued_fragment "beau - joli - beau" (some indicFamilier)
    [{ word := some "beau", info := some "familier" },
     { word := some "joli" },
     { word := some "beau", info := some "familier" }] (by decide)
    { word := some "beau", info := some "familier" } (by decide) (by decide)

/-! ## Claim C6 -/

/-- C6, counterexample.  The claim says a dash-split onym list never contains
an entry whose word is the empty string.  The code discards only fragments
that are *exactly* empty (`word != ""`) and then stores the *trimmed*
fragment: the run `"a -   - b"` splits into `["a", " ", "b"]`, and the
whitespace-only middle fragment survives the filter and trims to `""`. -/
theorem getTextOnyms_whitespace_fragment_counterexample :
    getTextOnyms "a -   - b" none =
      .ok [{ word := some "a" }, { word := some "" }, { word := some "b" }]
    ∧ jsSplit " - " "a -   - b" = ["a", " ", "b"] := by
  exact ⟨by decide, by decide⟩

/-- C6, as amended: the onym list contains one entry per fragment of the split
that is not exactly the empty string, in input order, each entry's word being
the *trimmed* fragment — which is itself the empty string exactly when the
surviving fragment was whitespace-only. -/
theorem getTextOnyms_words_in_order (data : String) (next : Option DomNode)
    (l : List Onym) (h : getTextOnyms data next = .ok l) :
    l.map Onym.word =
      ((jsSplit " - " data).filter (fun w => w != "")).map (fun w => some (jsTrim w)) := by
  unfold getTextOnyms at h
  exact getTextOnymsGo_words _ _ _ _ h

/-- C6 witness: the amended statement applied to the concrete whitespace
run above. -/
theorem getTextOnyms_words_in_order_witness :
    ([{ word := some "a" }, { word := some "" }, { word := some "b" }] : List Onym).map Onym.word
      = ((jsSplit " - " "a -   - b").filter (fun w => w != "")).map (fun w => some (jsTrim w)) :=
  getTextOnyms_words_in_order "a -   - b" none _ (by decide)

/-! ## Claim C7 -/

/-- C7, confirmed.  For any synonym/antonym sub-tree whose preceding label
(`prev.prev`) carries a text first child `d`, the classifier reports
`"synonyms"` exactly when `d` is an exact string match for one of the two
introducer phrases `"Synonyme :"` and `"Synonymes :"` (non-breaking space
before the colon), and `"antonyms"` for every other label text — mis-cased or
unexpected values included. -/
theorem getDefinitionOnyms_type_iff_introducer (cls href : Option String)
    (d : String) (rest : List DomNode) (onymContent : DomNode) (os : Onyms)
    (h : getDefinitionOnyms (some (.tag cls href (.text d :: rest))) onymContent = .ok os) :
    os.type = if d = "Synonyme :" ∨ d = "Synonymes :" then "synonyms" else "antonyms" := by
  obtain ⟨⟨labelData, hld, htype⟩, -⟩ := getDefinitionOnyms_shape _ _ _ h
  have hlabel : labelData = some d := by
    unfold onymLabelData at hld
    simp only [Except.ok.injEq] at hld
    rw [← hld]
    rfl
  subst hlabel
  simpa only [Option.some.injEq] using htype

/-- C7 witness: the statement applied to a mis-cased label `"synonymes :"`,
which the classifier files under antonyms. -/
theorem getDefinitionOnyms_type_iff_introducer_witness :
    (Onyms.mk "antonyms" [{ word := some "laid" }]).type
      = if ("synonymes :" : String) = "Synonyme :" ∨ ("synonymes :" : String) = "Synonymes :"
        then "synonyms" else "antonyms" :=
  getDefinitionOnyms_type_iff_introducer none none "synonymes :" []
    (.tag (some "Synonymes") none [.text "laid"])
    (Onyms.mk "antonyms" [{ word := some "laid" }]) (by decide)

/-! ## Claim C8 -/

/-- C8, confirmed.  Every `search` call either returns a full result object or
throws the single wrapping error carrying the originally requested word and
the underlying cause — never a raw lower-level error, and never a partial
result (the fetch outcome ranges over both transport failures and pages on
which any extraction step may fail). -/
theorem search_error_always_wrapped (word : String) (fetch : Except String Page) :
    (∃ r, search word fetch = .ok r)
    ∨ (∃ cause, search word fetch = .error (.searchFailed word cause)) := by
  unfold search
  cases hb : fetch.bind (fun page => searchBody word page) with
  | ok r => exact Or.inl ⟨r, rfl⟩
  | error e => exact Or.inr ⟨e, rfl⟩

/-! ## Claim C9 -/

/-- A definition container whose only child is the text node `"foo\nbar"`. -/
def divisionNewlineText : DomNode :=
  .tag (some "DivisionDefinition") none [.text "foo\nbar"]

/-- C9, counterexample.  The claim says that *exactly* the text nodes
consisting solely of a newline are skipped, every other non-empty,
non-pure-whitespace text node being appended verbatim.  The text node
`"foo\nbar"` is neither a lone newline nor pure whitespace, yet the code
skips it — `!child.data.includes("\n")` rejects every text node *containing*
a newline anywhere. -/
theorem getDefinition_newline_text_skipped_counterexample :
    Except.map Definition.definition (getDefinition divisionNewlineText) = .ok ""
    ∧ ("foo\nbar" : String) ≠ "\n"
    ∧ jsTrim "foo\nbar" ≠ "" := by
  exact ⟨by decide, by decide, by decide⟩

/-- The text-node case of `applyDefChild`, by definitional reduction. -/
theorem applyDefChild_text (prevPrev : Option DomNode) (acc : Definition) (d : String) :
    applyDefChild prevPrev acc (.text d) =
      if ¬ jsIncludes "\n" d = true ∧ jsTrim d ≠ "" then
        .ok { acc with definition := acc.definition ++ d }
      else .ok acc := rfl

/-- The text-node case of `wordsOfChildren`, by definitional reduction. -/
theorem wordsOfChildren_text_cons (d : String) (rest : List DomNode) :
    wordsOfChildren (.text d :: rest) =
      (if jsIncludes "\n" d = true then [] else jsSplit ", " (jsTrim d))
        ++ wordsOfChildren rest := rfl

/-- C9, as amended: during definition-text accumulation a text node is
appended verbatim exactly when it contains no newline character anywhere *and*
does not trim to the empty string — any text node containing a newline is
skipped, not only the pure-newline ones — and the spelling-header loop of
`getWords` likewise skips exactly the text nodes containing a newline. -/
theorem defText_appended_iff_no_newline_and_nonblank (prevPrev : Option DomNode)
    (acc : Definition) (d : String) (rest : List DomNode) :
    applyDefChild prevPrev acc (.text d) =
      .ok (if '\n' ∈ d.data ∨ jsTrim d = "" then acc
           else { acc with definition := acc.definition ++ d })
    ∧ wordsOfChildren (.text d :: rest) =
        (if '\n' ∈ d.data then [] else jsSplit ", " (jsTrim d)) ++ wordsOfChildren rest := by
  constructor
  · by_cases hn : '\n' ∈ d.data
    · have hinc : jsIncludes "\n" d = true := (jsIncludes_newline d).mpr hn
      rw [applyDefChild_text, if_neg (fun hc => hc.1 hinc), if_pos (Or.inl hn)]
    · have hinc : ¬ jsIncludes "\n" d = true := fun hi => hn ((jsIncludes_newline d).mp hi)
      by_cases hb : jsTrim d = ""
      · rw [applyDefChild_text, if_neg (fun hc => hc.2 hb), if_pos (Or.inr hb)]
      · rw [applyDefChild_text, if_pos ⟨hinc, hb⟩, if_neg (fun hor => hor.elim hn hb)]
  · by_cases hn : '\n' ∈ d.data
    · rw [wordsOfChildren_text_cons, if_pos ((jsIncludes_newline d).mpr hn), if_pos hn]
    · rw [wordsOfChildren_text_cons,
        if_neg (fun hi => hn ((jsIncludes_newline d).mp hi)), if_neg hn]

/-! ## Claim C10 -/

/-- C10, confirmed.  An onym produced from a plain-text fragment never carries
a `url` property, an onym produced from a `Renvois` cross-reference never
carries an `info` property, and consequently no onym in any extracted
synonym/antonym list ever carries both. -/
theorem onym_never_both_url_and_info :
    (∀ (data : String) (next : Option DomNode) (l : List Onym),
      getTextOnyms data next = .ok l → ∀ o ∈ l, o.url = none)
    ∧ (∀ (c : DomNode) (o : Onym), renvoisOnym c = .ok o → o.info = none)
    ∧ (∀ (prevPrev : Option DomNode) (onymContent : DomNode) (os : Onyms),
        getDefinitionOnyms prevPrev onymContent = .ok os →
          ∀ o ∈ os.list, o.url = none ∨ o.info = none) := by
  refine ⟨?_, ?_, ?_⟩
  · intro data next l h o ho
    unfold getTextOnyms at h
    exact getTextOnymsGo_url _ _ _ _ h o ho
  · intro c o h
    exact (renvoisOnym_fields c o h).1
  · intro prevPrev onymContent os h o ho
    exact (getDefinitionOnyms_shape _ _ _ h).2 o ho

/-- C10 witness: the three conjuncts applied to concrete extractions — a text
run, a cross-reference element, and a mixed synonym sub-tree. -/
theorem onym_never_both_url_and_info_witness :
    ({ word := some "beau" } : Onym).url = none
    ∧ ({ word := some "laid",
         url := some "https://www.larousse.fr/dictionnaires/francais/laid/1" } : Onym).info = none
    ∧ (({ word := some "laid",
          url := some "https://www.larousse.fr/dictionnaires/francais/laid/1" } : Onym).url = none
        ∨ ({ word := some "laid",
             url := some "https://www.larousse.fr/dictionnaires/francais/laid/1" } : Onym).info = none) := by
  refine ⟨?_, ?_, ?_⟩
  · exact onym_never_both_url_and_info.1 "beau - joli" none
      [{ word := some "beau" }, { word := some "joli" }] (by decide)
      { word := some "beau" } (by decide)
  · exact onym_never_both_url_and_info.2.1
      (.tag (some "Renvois") none
        [.tag none (some "dictionnaires/francais/laid/1") [.text "laid"]])
      { word := some "laid",
        url := some "https://www.larousse.fr/dictionnaires/francais/laid/1" } (by decide)
  · exact onym_never_both_url_and_info.2.2 (some (.tag none none [.text "Contraires :"]))
      (.tag (some "Synonymes") none
        [.tag (some "Renvois") none
          [.tag none (some "dictionnaires/francais/laid/1") [.text "laid"]]])
      (Onyms.mk "antonyms"
        [{ word := some "laid",
           url := some "https://www.larousse.fr/dictionnaires/francais/laid/1" }]) (by decide)
      { word := some "laid",
        url := some "https://www.larousse.fr/dictionnaires/francais/laid/1" } (by decide)
